import Mathlib

/-
Verification of the Metric Translation & Energy Accrual Engine of
src/exporter.js (zwave-exporter).

The development shallowly embeds the `value updated` handler and its helper
state: the unit suffix table (lines 16-24), the value-coercion branches
(lines 85-93), the metric-name derivation (lines 97-102), the metric registry
cache (lines 103-110), the energy-accrual branch over the `consumption` map
(lines 112-126), and the MAX_RSS watchdog (lines 141-150).

Modelling conventions:
  - JavaScript strings are `List Char`; `String.toLowerCase` becomes a
    per-character `Char.toLower` map, and the regex replacements become
    per-character map / filter passes in the order the source applies them.
  - JavaScript numbers are `ℚ`; `NaN`/`undefined` arithmetic results are
    `Option ℚ` with `none` standing for the non-numeric result, and the
    helper operations `jsMul`/`jsAdd` propagate `none` the way JavaScript
    arithmetic propagates `NaN`.
  - JavaScript objects keyed by strings (the `metrics` registry and the
    `consumption` map) are association lists; `upsert` replaces an existing
    binding in place and appends a fresh binding at the end, matching
    property insertion order.
  - A thrown-and-uncaught exception (the `TypeError` produced by reading a
    property of `null`/`undefined`) is `Except.error ()`.
-/

namespace ZWaveExporter

/-- Characters of a JavaScript string. -/
abbrev Str := List Char

/-- Lookup in an association list (JavaScript property read, first match). -/
def alookup {α β : Type} [DecidableEq α] : List (α × β) → α → Option β
  | [], _ => none
  | (k, v) :: t, k' => if k = k' then some v else alookup t k'

/-- Property write on a JavaScript object: replace an existing binding in
place, or append a fresh binding at the end. -/
def upsert {α β : Type} [DecidableEq α] : List (α × β) → α → β → List (α × β)
  | [], k, v => [(k, v)]
  | (k', v') :: t, k, v => if k' = k then (k, v) :: t else (k', v') :: upsert t k v

/-- The `unit_mapping` table of src/exporter.js lines 16-24. -/
def unit_mapping : List (Str × Str) :=
  [("A".data, "_amperes".data),
   ("°C".data, "_celsius".data),
   ("kWh".data, "_kwh".data),
   ("%".data, "_percent".data),
   ("ppm".data, "_ppm".data),
   ("V".data, "_volts".data),
   ("W".data, "_watts".data)]

/-- Suffix computation of lines 82 and 94-96: `suffix` starts as the empty
string and is set to `unit_mapping[unit] ?? unit` only when `unit` is truthy
(present and non-empty). -/
def suffixOf : Option Str → Str
  | none => []
  | some u => if u = [] then [] else (alookup unit_mapping u).getD u

/-- Per-character embedding of `String.prototype.toLowerCase`. -/
def jsToLower (s : Str) : Str := s.map Char.toLower

/-- Embedding of `String.prototype.replace` with a single-character global
pattern and single-character replacement. -/
def replaceAll (a b : Char) (s : Str) : Str := s.map (fun c => if c = a then b else c)

/-- Embedding of `.replace(/[()]/g, '')`. -/
def stripParens (s : Str) : Str := s.filter (fun c => !(c == '(' || c == ')'))

/-- The sanitization pipeline of lines 97-101, in source order: lower-case,
spaces to underscores, subscript-two to the digit 2, strip parentheses. -/
def sanitize (s : Str) : Str :=
  stripParens (replaceAll '₂' '2' (replaceAll ' ' '_' (jsToLower s)))

/-- Metric-name derivation of lines 97-102: namespace prepended to the
sanitized raw name, unit suffix appended. -/
def deriveName (name suffix : Str) : Str := "zwave_".data ++ sanitize name ++ suffix

/-- The exact identifier tested on line 112 to route an event into the
energy-accrual branch. -/
def energyMetricName : Str := "zwave_electric_w_consumed_watts".data

/-- Shapes a `value.newValue` payload can take. `obj` carries the `value`
and `unit` properties when present; a missing property reads as undefined. -/
inductive JSVal where
  | bool (b : Bool)
  | num (x : ℚ)
  | str (s : Str)
  | jsNull
  | undef
  | obj (value : Option ℚ) (unit : Option Str)
deriving DecidableEq

/-- The value-coercion branches of lines 85-93. Booleans map to 1/0 with no
unit; numbers pass through with the metadata unit; every other payload is
treated as a composite object, whose `unit` property falls back to the
metadata unit under `??` and whose `value` property becomes the metric value.
Reading a property of `null` or `undefined` throws (`Except.error`); reading
a missing property of any other value yields undefined (`none`). -/
def coerce : JSVal → Option Str → Except Unit (Option ℚ × Option Str)
  | .bool b, _ => .ok (some (if b then 1 else 0), none)
  | .num x, mu => .ok (some x, mu)
  | .jsNull, _ => .error ()
  | .undef, _ => .error ()
  | .str _, mu => .ok (none, mu)
  | .obj v u, mu => .ok (v, match u with | some w => some w | none => mu)

/-- Fields of a value-update event that the handler reads. -/
structure VUpdate where
  endpoint : ℕ
  propertyName : Str
  propertyKeyName : Option Str
  newValue : JSVal

/-- Metadata returned by `node.getValueMetadata(value)`. -/
structure Metadata where
  unit : Option Str
  label : Str

/-- Line 81: `value.propertyKeyName || value.propertyName` — the key name is
used when truthy (present and non-empty), else the property name. -/
def valueName (e : VUpdate) : Str :=
  match e.propertyKeyName with
  | some s => if s = [] then e.propertyName else s
  | none => e.propertyName

/-- The constant label schema passed to every gauge constructor. -/
def gaugeLabelNames : List Str := ["node".data, "endpoint".data, "name".data]

/-- A registered gauge instrument: identifier, help text, label schema. -/
structure Gauge where
  name : Str
  help : Str
  labelNames : List Str
deriving DecidableEq

/-- The registry-cache step of lines 103-110: if the identifier is absent
from `metrics`, construct a gauge with the supplied help text and register
it; otherwise reuse the cached gauge. Returns the updated registry, the
gauge the handler will use, and whether a registration happened. -/
def getOrCreate (metrics : List (Str × Gauge)) (mname help : Str) :
    List (Str × Gauge) × Gauge × Bool :=
  match alookup metrics mname with
  | some g => (metrics, g, false)
  | none => (upsert metrics mname ⟨mname, help, gaugeLabelNames⟩,
             ⟨mname, help, gaugeLabelNames⟩, true)

/-- Per-key state of the `consumption` map: `last` observation time in
milliseconds and accumulated `joules` (an `Option` because JavaScript
arithmetic on an undefined metric value yields `NaN`). -/
structure AccrualRec where
  last : ℚ
  joules : Option ℚ
deriving DecidableEq

/-- JavaScript multiplication with `NaN` propagation. -/
def jsMul : Option ℚ → Option ℚ → Option ℚ
  | some a, some b => some (a * b)
  | _, _ => none

/-- JavaScript addition with `NaN` propagation. -/
def jsAdd : Option ℚ → Option ℚ → Option ℚ
  | some a, some b => some (a + b)
  | _, _ => none

/-- The energy-accrual step of lines 113-125. With prior state, the elapsed
time since the stored observation is converted to seconds, the energy delta
is the CURRENT metric value times that elapsed time, the record is updated in
place, and the delta is reported as the counter increment (`some`). With no
prior state, a fresh record with zero joules is stored and nothing is
reported (`none`). -/
def accrue (consumption : List ((ℕ × ℕ) × AccrualRec)) (key : ℕ × ℕ)
    (power : Option ℚ) (time : ℚ) :
    List ((ℕ × ℕ) × AccrualRec) × Option (Option ℚ) :=
  match alookup consumption key with
  | some r =>
    let elapsed := (time - r.last) / 1000
    let energy := jsMul power (some elapsed)
    (upsert consumption key ⟨time, jsAdd r.joules energy⟩, some energy)
  | none => (upsert consumption key ⟨time, some 0⟩, none)

/-- Label values attached to every gauge update and counter increment. -/
structure Labels where
  node : ℕ
  endpoint : ℕ
  name : Str
deriving DecidableEq

/-- Process-wide mutable state the handler touches. -/
structure ExpState where
  metrics : List (Str × Gauge)
  consumption : List ((ℕ × ℕ) × AccrualRec)

/-- Observable outcome of one handler run: the new state, the gauge freshly
registered (if any), the increment sent to the cumulative energy counter
(if any), and the final `metrics[metric_name].set(labels, metricValue)`. -/
structure HandleOut where
  state : ExpState
  registered : Option Gauge
  counterInc : Option (Labels × Option ℚ)
  gaugeSet : Str × Labels × Option ℚ

/-- The whole `value updated` handler body of lines 81-127: coercion, suffix
resolution, name derivation, registry create-if-absent, routing into the
energy-accrual branch exactly when the derived name equals
`energyMetricName`, and the final gauge update. An uncaught coercion
exception aborts the handler. -/
def handle (st : ExpState) (nodeId : ℕ) (nodeName : Str) (e : VUpdate)
    (md : Metadata) (time : ℚ) : Except Unit HandleOut := do
  let (mv, unit) ← coerce e.newValue md.unit
  let mname := deriveName (valueName e) (suffixOf unit)
  let (ms, g, isNew) := getOrCreate st.metrics mname md.label
  let labels : Labels := ⟨nodeId, e.endpoint, nodeName⟩
  let (cons, inc) :=
    if mname = energyMetricName then
      accrue st.consumption (nodeId, e.endpoint) mv time
    else (st.consumption, none)
  .ok ⟨⟨ms, cons⟩, if isNew then some g else none,
       inc.map (fun en => (labels, en)), (mname, labels, mv)⟩

/-- The MAX_RSS guard of line 141: the watchdog interval is installed only
for a positive ceiling. -/
def watchdogEnabled (maxRss : ℕ) : Bool := 0 < maxRss

/-- One tick body, lines 143-149: exit with status 1 when resident memory
strictly exceeds the ceiling. -/
def rssCheck (maxRss rss : ℕ) : Option ℕ := if maxRss < rss then some 1 else none

/-- Combined watchdog behaviour: a tick can only fire when the interval was
installed, i.e. when the ceiling is positive. -/
def watchdogTick (maxRss rss : ℕ) : Option ℕ :=
  if watchdogEnabled maxRss then rssCheck maxRss rss else none

theorem alookup_upsert_self {α β : Type} [DecidableEq α] (m : List (α × β)) (k : α) (v : β) :
    alookup (upsert m k v) k = some v := by
  induction m with
  | nil => simp [upsert, alookup]
  | cons p t ih =>
    obtain ⟨k', v'⟩ := p
    by_cases h : k' = k
    · subst h
      simp [upsert, alookup]
    · simp [upsert, alookup, h, ih]

theorem alookup_upsert_ne {α β : Type} [DecidableEq α] (m : List (α × β)) (k k' : α) (v : β)
    (h : k' ≠ k) : alookup (upsert m k v) k' = alookup m k' := by
  have hk : ¬(k = k') := fun hh => h hh.symm
  induction m with
  | nil => simp [upsert, alookup, hk]
  | cons p t ih =>
    obtain ⟨k₀, v₀⟩ := p
    by_cases h0 : k₀ = k
    · subst h0
      simp [upsert, alookup, hk]
    · simp [upsert, alookup, h0, ih]

/-- Claim C5: value coercion on the three valid payload shapes. A boolean
yields 1 for true and 0 for false with no unit; a number yields the value
unchanged with the metadata unit (42 with metadata unit "W" yields
(42, "W")); a composite object yields its contained value with its contained
unit if present (3.3 with unit "V" yields (3.3, "V")), else the metadata
unit. -/
theorem C5_coerce_valid_shapes :
    (∀ mu : Option Str, coerce (.bool true) mu = .ok (some 1, none))
    ∧ (∀ mu : Option Str, coerce (.bool false) mu = .ok (some 0, none))
    ∧ coerce (.num 42) (some "W".data) = .ok (some 42, some "W".data)
    ∧ (∀ (x : ℚ) (mu : Option Str), coerce (.num x) mu = .ok (some x, mu))
    ∧ coerce (.obj (some (33 / 10)) (some "V".data)) (some "W".data)
        = .ok (some (33 / 10), some "V".data)
    ∧ (∀ (x : ℚ) (u : Str) (mu : Option Str),
        coerce (.obj (some x) (some u)) mu = .ok (some x, some u))
    ∧ (∀ (x : ℚ) (mu : Option Str), coerce (.obj (some x) none) mu = .ok (some x, mu)) :=
  ⟨fun _ => rfl, fun _ => rfl, rfl, fun _ _ => rfl, rfl, fun _ _ _ => rfl, fun _ _ => rfl⟩

/-- Claim C7: when the configured ceiling is positive and a tick observes
resident memory strictly above it, the watchdog exits with status 1 (in
particular at ceiling 1000 and observed 1500); when the ceiling is zero the
watchdog never terminates the process, whatever the memory usage. -/
theorem C7_watchdog :
    (∀ maxRss rss : ℕ, 0 < maxRss → maxRss < rss → watchdogTick maxRss rss = some 1)
    ∧ watchdogTick 1000 1500 = some 1
    ∧ (∀ rss : ℕ, watchdogTick 0 rss = none) := by
  refine ⟨fun maxRss rss h1 h2 => ?_, by decide, fun rss => rfl⟩
  simp [watchdogTick, watchdogEnabled, rssCheck, h1, h2]

theorem C7_watchdog_witness :
    watchdogTick 1000 1500 = some 1 ∧ watchdogTick 0 999999999 = none :=
  ⟨C7_watchdog.1 1000 1500 (by decide) (by decide), C7_watchdog.2.2 999999999⟩

/-- Claim C10: the raw name fed into metric-name derivation is the event's
propertyKeyName when that field is truthy (present and non-empty), and
otherwise the event's propertyName; an absent or empty propertyKeyName falls
back to propertyName. -/
theorem C10_value_name_selection :
    (∀ (ep : ℕ) (pn : Str) (c : Char) (t : Str) (nv : JSVal),
        valueName ⟨ep, pn, some (c :: t), nv⟩ = c :: t)
    ∧ (∀ (ep : ℕ) (pn : Str) (nv : JSVal), valueName ⟨ep, pn, none, nv⟩ = pn)
    ∧ (∀ (ep : ℕ) (pn : Str) (nv : JSVal), valueName ⟨ep, pn, some [], nv⟩ = pn) :=
  ⟨fun ep pn c t nv => by simp [valueName], fun ep pn nv => rfl, fun ep pn nv => rfl⟩

/-- Claim C4: the first registry lookup of an absent identifier creates and
registers exactly one gauge carrying the description supplied at that call
(the registry gains exactly that binding and no other key changes); a
subsequent lookup of the same identifier returns that same cached gauge,
registers nothing new, and ignores the later description. -/
theorem C4_metric_registry_cache (m : List (Str × Gauge)) (key d1 d2 : Str)
    (h : alookup m key = none) :
    ∃ g : Gauge,
      getOrCreate m key d1 = (upsert m key g, g, true)
      ∧ g = ⟨key, d1, gaugeLabelNames⟩
      ∧ alookup (upsert m key g) key = some g
      ∧ (∀ key' : Str, key' ≠ key → alookup (upsert m key g) key' = alookup m key')
      ∧ getOrCreate (upsert m key g) key d2 = (upsert m key g, g, false) := by
  refine ⟨⟨key, d1, gaugeLabelNames⟩, ?_, rfl, alookup_upsert_self m key _, ?_, ?_⟩
  · simp [getOrCreate, h]
  · exact fun key' hk => alookup_upsert_ne m key key' _ hk
  · simp [getOrCreate, alookup_upsert_self]

theorem C4_metric_registry_cache_witness :
    ∃ g : Gauge,
      getOrCreate [] "zwave_test".data "first help".data
          = (upsert [] "zwave_test".data g, g, true)
      ∧ g = ⟨"zwave_test".data, "first help".data, gaugeLabelNames⟩
      ∧ alookup (upsert [] "zwave_test".data g) "zwave_test".data = some g
      ∧ (∀ key' : Str, key' ≠ "zwave_test".data →
          alookup (upsert [] "zwave_test".data g) key' = alookup [] key')
      ∧ getOrCreate (upsert [] "zwave_test".data g) "zwave_test".data "second help".data
          = (upsert [] "zwave_test".data g, g, false) :=
  C4_metric_registry_cache [] "zwave_test".data "first help".data "second help".data rfl

/-- Claim C1 counterexample: on the spec's own two-sample scenario — samples
(t=0 ms, P=10 W) then (t=5000 ms, P=20 W) — the code reports a delta of
20 W * 5 s = 100 J at the second sample (the CURRENT sample's power times the
elapsed time), not the claimed 10 W * 5 s = 50 J. -/
theorem C1_counterexample :
    (accrue (accrue [] (1, 0) (some 10) 0).1 (1, 0) (some 20) 5000).2 = some (some 100)
    ∧ (accrue (accrue [] (1, 0) (some 10) 0).1 (1, 0) (some 20) 5000).2 ≠ some (some 50) := by
  have h : (accrue (accrue [] (1, 0) (some 10) 0).1 (1, 0) (some 20) 5000).2
      = some (some 100) := by
    simp [accrue, alookup, upsert, jsMul]
    norm_num
  refine ⟨h, ?_⟩
  rw [h]
  simp only [ne_eq, Option.some.injEq]
  norm_num

/-- Claim C1 as amended: for a key with no prior state, the first accrue call
creates state with zero joules and reports no delta; on the second call the
reported delta equals the SECOND (current) sample's power multiplied by the
elapsed seconds between the two samples. -/
theorem C1_amended_second_sample_power (m : List ((ℕ × ℕ) × AccrualRec)) (k : ℕ × ℕ)
    (p1 p2 t1 t2 : ℚ) (h : alookup m k = none) :
    (accrue m k (some p1) t1).2 = none
    ∧ alookup (accrue m k (some p1) t1).1 k = some ⟨t1, some 0⟩
    ∧ (accrue (accrue m k (some p1) t1).1 k (some p2) t2).2
        = some (some (p2 * ((t2 - t1) / 1000))) := by
  have h1 : accrue m k (some p1) t1 = (upsert m k ⟨t1, some 0⟩, none) := by
    simp [accrue, h]
  have h2 : alookup (upsert m k (⟨t1, some 0⟩ : AccrualRec)) k = some ⟨t1, some 0⟩ :=
    alookup_upsert_self m k _
  refine ⟨by rw [h1], by rw [h1]; exact h2, ?_⟩
  rw [h1]
  simp [accrue, h2, jsMul]

theorem C1_amended_second_sample_power_witness :
    (accrue [] (1, 0) (some 10) 0).2 = none
    ∧ alookup (accrue [] (1, 0) (some 10) 0).1 (1, 0) = some ⟨0, some 0⟩
    ∧ (accrue (accrue [] (1, 0) (some 10) 0).1 (1, 0) (some 20) 5000).2
        = some (some (20 * ((5000 - 0) / 1000))) :=
  C1_amended_second_sample_power [] (1, 0) 10 20 0 5000 rfl

/-- Claim C2 counterexample: the code does not clamp a negative elapsed time.
With stored state (last=5000 ms, joules=100) a sample at t=3000 ms with power
10 W reports a delta of 10 * (-2) = -20 J — negative, not zero — and the
stored cumulative joules DECREASE from 100 to 80. -/
theorem C2_counterexample :
    (accrue [((1, 0), (⟨5000, some 100⟩ : AccrualRec))] (1, 0) (some 10) 3000).2
        = some (some (-20))
    ∧ alookup (accrue [((1, 0), (⟨5000, some 100⟩ : AccrualRec))] (1, 0) (some 10) 3000).1
        (1, 0) = some ⟨3000, some 80⟩
    ∧ ((-20 : ℚ) < 0 ∧ (80 : ℚ) < 100) := by
  refine ⟨?_, ?_, by norm_num, by norm_num⟩
  · simp [accrue, alookup, upsert, jsMul, jsAdd]
    norm_num
  · simp [accrue, alookup, upsert, jsMul, jsAdd]
    norm_num

/-- Claim C2 as amended: no defensive clamping exists; instead,
cumulativeJoules is non-decreasing provided each power sample is non-negative
and its timestamp is at least the stored lastObservationTimestamp (which the
monotonic `performance.now()` clock guarantees in practice): under those
hypotheses the reported delta is non-negative and the stored joules only
grow. -/
theorem C2_amended_monotone_under_monotone_clock (m : List ((ℕ × ℕ) × AccrualRec))
    (k : ℕ × ℕ) (r : AccrualRec) (j p t : ℚ)
    (hl : alookup m k = some r) (hj : r.joules = some j) (ht : r.last ≤ t) (hp : 0 ≤ p) :
    ∃ d : ℚ, 0 ≤ d
      ∧ (accrue m k (some p) t).2 = some (some d)
      ∧ alookup (accrue m k (some p) t).1 k = some ⟨t, some (j + d)⟩
      ∧ j ≤ j + d := by
  refine ⟨p * ((t - r.last) / 1000), ?_, ?_, ?_, ?_⟩
  · exact mul_nonneg hp (div_nonneg (sub_nonneg.mpr ht) (by norm_num))
  · simp [accrue, hl, jsMul]
  · simp [accrue, hl, jsMul, jsAdd, hj, alookup_upsert_self]
  · exact le_add_of_nonneg_right
      (mul_nonneg hp (div_nonneg (sub_nonneg.mpr ht) (by norm_num)))

theorem C2_amended_monotone_under_monotone_clock_witness :
    ∃ d : ℚ, 0 ≤ d
      ∧ (accrue [((1, 0), (⟨0, some 0⟩ : AccrualRec))] (1, 0) (some 10) 2000).2
          = some (some d)
      ∧ alookup (accrue [((1, 0), (⟨0, some 0⟩ : AccrualRec))] (1, 0) (some 10) 2000).1
          (1, 0) = some ⟨2000, some (0 + d)⟩
      ∧ (0 : ℚ) ≤ 0 + d :=
  C2_amended_monotone_under_monotone_clock [((1, 0), ⟨0, some 0⟩)] (1, 0) ⟨0, some 0⟩
    0 10 2000 rfl rfl (by norm_num) (by norm_num)

/-- Claim C3 counterexample: there is no MalformedValueError and the failure
is not isolated. A string payload "hello" is NOT rejected: coercion succeeds,
yielding an undefined metric value with the metadata unit, and the update
proceeds. A null payload instead makes the handler throw an uncaught
TypeError (reading `.unit` of null), aborting the reaction. -/
theorem C3_counterexample :
    coerce (.str "hello".data) (some "W".data) = .ok (none, some "W".data)
    ∧ coerce .jsNull (some "W".data) = .error ()
    ∧ handle ⟨[], []⟩ 1 "kitchen".data ⟨0, "currentValue".data, none, .jsNull⟩
        ⟨some "W".data, "Current value".data⟩ 0 = .error () :=
  ⟨rfl, rfl, rfl⟩

/-- Claim C3 as amended: no MalformedValueError mechanism exists. Every
payload that is not a boolean and not a number is treated as a composite
object: for a string payload, coercion silently succeeds with an undefined
metric value and the metadata unit (no error is signalled and the update is
not skipped); for a null or undefined payload the property read throws an
uncaught TypeError, which aborts the whole handler reaction rather than
being isolated. -/
theorem C3_amended_no_malformed_value_error :
    (∀ (s : Str) (mu : Option Str), coerce (.str s) mu = .ok (none, mu))
    ∧ (∀ mu : Option Str, coerce .jsNull mu = .error ())
    ∧ (∀ mu : Option Str, coerce .undef mu = .error ())
    ∧ (∀ (st : ExpState) (nodeId : ℕ) (nodeName : Str) (ep : ℕ) (pn : Str)
        (pkn : Option Str) (md : Metadata) (t : ℚ),
        handle st nodeId nodeName ⟨ep, pn, pkn, .jsNull⟩ md t = .error ())
    ∧ (∀ (st : ExpState) (nodeId : ℕ) (nodeName : Str) (ep : ℕ) (pn : Str)
        (pkn : Option Str) (md : Metadata) (t : ℚ),
        handle st nodeId nodeName ⟨ep, pn, pkn, .undef⟩ md t = .error ()) :=
  ⟨fun _ _ => rfl, fun _ => rfl, fun _ => rfl,
   fun _ _ _ _ _ _ _ _ => rfl, fun _ _ _ _ _ _ _ _ => rfl⟩

/-- Claim C9: an event whose coercion succeeds is routed through the energy
accrual branch if and only if its fully derived metric identifier is exactly
`zwave_electric_w_consumed_watts`: when the derived name equals that string,
the new consumption map and the counter increment are exactly those produced
by `accrue`; when it differs, the consumption map is untouched and no
increment is emitted. The decision is a single string equality on the
derived name (raw name plus unit-derived suffix), not a separate check on
the unit or the property. -/
theorem handle_eq (st : ExpState) (nodeId : ℕ) (nodeName : Str) (e : VUpdate)
    (md : Metadata) (t : ℚ) (mv : Option ℚ) (unit : Option Str)
    (hc : coerce e.newValue md.unit = .ok (mv, unit)) :
    handle st nodeId nodeName e md t = .ok
      ⟨⟨(getOrCreate st.metrics (deriveName (valueName e) (suffixOf unit)) md.label).1,
        (if deriveName (valueName e) (suffixOf unit) = energyMetricName then
            accrue st.consumption (nodeId, e.endpoint) mv t
          else (st.consumption, none)).1⟩,
       if (getOrCreate st.metrics (deriveName (valueName e) (suffixOf unit)) md.label).2.2
         then some (getOrCreate st.metrics (deriveName (valueName e) (suffixOf unit))
                      md.label).2.1
         else none,
       ((if deriveName (valueName e) (suffixOf unit) = energyMetricName then
            accrue st.consumption (nodeId, e.endpoint) mv t
          else (st.consumption, none)).2).map
          (fun en => (⟨nodeId, e.endpoint, nodeName⟩, en)),
       (deriveName (valueName e) (suffixOf unit), ⟨nodeId, e.endpoint, nodeName⟩, mv)⟩ := by
  unfold handle
  rw [hc]
  rfl

theorem C9_energy_routing (st : ExpState) (nodeId : ℕ) (nodeName : Str) (e : VUpdate)
    (md : Metadata) (t : ℚ) (mv : Option ℚ) (unit : Option Str)
    (hc : coerce e.newValue md.unit = .ok (mv, unit)) :
    ∃ out : HandleOut, handle st nodeId nodeName e md t = .ok out
      ∧ (deriveName (valueName e) (suffixOf unit) = energyMetricName →
          out.state.consumption = (accrue st.consumption (nodeId, e.endpoint) mv t).1
          ∧ out.counterInc = ((accrue st.consumption (nodeId, e.endpoint) mv t).2).map
              (fun en => (⟨nodeId, e.endpoint, nodeName⟩, en)))
      ∧ (deriveName (valueName e) (suffixOf unit) ≠ energyMetricName →
          out.state.consumption = st.consumption ∧ out.counterInc = none) := by
  have he := handle_eq st nodeId nodeName e md t mv unit hc
  by_cases hname : deriveName (valueName e) (suffixOf unit) = energyMetricName
  · simp only [if_pos hname] at he
    exact ⟨_, he, fun _ => ⟨rfl, rfl⟩, fun hn => absurd hname hn⟩
  · simp only [if_neg hname] at he
    exact ⟨_, he, fun hn => absurd hn hname, fun _ => ⟨rfl, rfl⟩⟩

theorem C9_energy_routing_witness :
    ∃ out : HandleOut,
      handle ⟨[], []⟩ 7 "meter".data ⟨2, "Electric W Consumed".data, none, .num 100⟩
          ⟨some "W".data, "Electric Consumed".data⟩ 1000 = .ok out
      ∧ (deriveName (valueName ⟨2, "Electric W Consumed".data, none, .num 100⟩)
            (suffixOf (some "W".data)) = energyMetricName →
          out.state.consumption = (accrue [] (7, 2) (some 100) 1000).1
          ∧ out.counterInc = ((accrue [] (7, 2) (some 100) 1000).2).map
              (fun en => (⟨7, 2, "meter".data⟩, en)))
      ∧ (deriveName (valueName ⟨2, "Electric W Consumed".data, none, .num 100⟩)
            (suffixOf (some "W".data)) ≠ energyMetricName →
          out.state.consumption = [] ∧ out.counterInc = none) :=
  C9_energy_routing ⟨[], []⟩ 7 "meter".data ⟨2, "Electric W Consumed".data, none, .num 100⟩
    ⟨some "W".data, "Electric Consumed".data⟩ 1000 (some 100) (some "W".data) rfl

theorem toLower_idem (c : Char) : c.toLower.toLower = c.toLower := by
  by_cases h : 65 ≤ c.toNat ∧ c.toNat ≤ 90
  · have hl : c.toLower = Char.ofNat (c.toNat + 32) := by
      rw [Char.toLower]
      exact if_pos ⟨h.1, h.2⟩
    rw [hl]
    have h1 := h.1
    have h2 := h.2
    set n := c.toNat with hn
    interval_cases n <;> decide
  · have hl : c.toLower = c := by
      rw [Char.toLower]
      exact if_neg h
    rw [hl, hl]

/-- Composition of the three per-character rewrites of the sanitization
pipeline (lower-case, then space to underscore, then subscript-two to 2),
in the order the source applies them. -/
def sanChar (c : Char) : Char :=
  if (if Char.toLower c = ' ' then '_' else Char.toLower c) = '₂' then '2'
  else if Char.toLower c = ' ' then '_' else Char.toLower c

/-- Characters the parenthesis-stripping pass keeps. -/
def keepChar (c : Char) : Bool := !(c == '(' || c == ')')

theorem sanitize_cons (c : Char) (t : Str) :
    sanitize (c :: t) =
      if keepChar (sanChar c) then sanChar c :: sanitize t else sanitize t := by
  by_cases hs : Char.toLower c = ' '
  · simp [sanitize, jsToLower, replaceAll, stripParens, sanChar, keepChar, hs]
  · by_cases h2 : Char.toLower c = '₂'
    · simp [sanitize, jsToLower, replaceAll, stripParens, sanChar, keepChar, hs, h2]
    · simp [sanitize, jsToLower, replaceAll, stripParens, sanChar, keepChar, hs, h2,
        List.filter_cons]

theorem sanChar_ne_space (c : Char) : sanChar c ≠ ' ' := by
  unfold sanChar
  by_cases h2 : (if Char.toLower c = ' ' then '_' else Char.toLower c) = '₂'
  · simp [h2]
  · rw [if_neg h2]
    by_cases hs : Char.toLower c = ' '
    · simp [hs]
    · rw [if_neg hs]
      exact hs

theorem sanChar_ne_sub2 (c : Char) : sanChar c ≠ '₂' := by
  unfold sanChar
  by_cases h2 : (if Char.toLower c = ' ' then '_' else Char.toLower c) = '₂'
  · simp [h2]
  · rw [if_neg h2]
    exact h2

theorem sanitize_clean (s : Str) :
    ∀ c ∈ sanitize s, c ≠ ' ' ∧ c ≠ '₂' ∧ c ≠ '(' ∧ c ≠ ')' := by
  induction s with
  | nil => intro c hc; cases hc
  | cons a t ih =>
    intro c hc
    rw [sanitize_cons] at hc
    by_cases hk : keepChar (sanChar a)
    · rw [if_pos hk] at hc
      rcases List.mem_cons.mp hc with rfl | hm
      · refine ⟨sanChar_ne_space a, sanChar_ne_sub2 a, ?_, ?_⟩
        · intro h
          rw [h] at hk
          exact absurd hk (by decide)
        · intro h
          rw [h] at hk
          exact absurd hk (by decide)
      · exact ih c hm
    · rw [if_neg hk] at hc
      exact ih c hc

theorem zwaveHeadClean :
    ∀ c ∈ "zwave_".data, c ≠ ' ' ∧ c ≠ '₂' ∧ c ≠ '(' ∧ c ≠ ')' := by decide

theorem unit_mapping_values_clean (v s : Str) (hs : alookup unit_mapping v = some s) :
    ∀ c ∈ s, c ≠ ' ' ∧ c ≠ '₂' ∧ c ≠ '(' ∧ c ≠ ')' := by
  simp only [unit_mapping, alookup] at hs
  split_ifs at hs <;> injection hs with hs <;> subst hs <;> decide

/-- Claim C6 counterexample: an unrecognized unit passes through the
normalizer unchanged and is appended verbatim, so the unit "a b" — a suffix
the normalizer does produce — puts a space character into the derived
identifier. -/
theorem C6_counterexample :
    ' ' ∈ deriveName "x".data (suffixOf (some "a b".data)) := by decide

/-- Claim C6 as amended: for every raw property name, and every suffix the
normalizer produces from an absent unit or from a unit found in the mapping
table, the derived identifier contains no space, no subscript-two and no
parenthesis. (An unrecognized unit is passed through verbatim as the suffix
and may itself carry such characters.) -/
theorem C6_amended_clean_identifier (name : Str) (u : Option Str)
    (h : u = none ∨ ∃ v, u = some v ∧ (alookup unit_mapping v).isSome = true) :
    ∀ c ∈ deriveName name (suffixOf u), c ≠ ' ' ∧ c ≠ '₂' ∧ c ≠ '(' ∧ c ≠ ')' := by
  intro c hc
  rw [deriveName] at hc
  rcases List.mem_append.mp hc with h12 | h3
  · rcases List.mem_append.mp h12 with h1 | h2
    · exact zwaveHeadClean c h1
    · exact sanitize_clean name c h2
  rcases h with rfl | ⟨v, rfl, hv⟩
  · cases h3
  by_cases hve : v = []
  · subst hve
    simp [suffixOf] at h3
  obtain ⟨s, hs⟩ := Option.isSome_iff_exists.mp hv
  have hsf : suffixOf (some v) = s := by simp [suffixOf, hve, hs]
  rw [hsf] at h3
  exact unit_mapping_values_clean v s hs c h3

theorem C6_amended_clean_identifier_witness :
    ((some "W".data = none
      ∨ ∃ v, some "W".data = some v ∧ (alookup unit_mapping v).isSome = true)
    ∧ ∀ c ∈ deriveName "Electric W Consumed".data (suffixOf (some "W".data)),
        c ≠ ' ' ∧ c ≠ '₂' ∧ c ≠ '(' ∧ c ≠ ')') :=
  ⟨Or.inr ⟨"W".data, rfl, by decide⟩,
   C6_amended_clean_identifier "Electric W Consumed".data (some "W".data)
     (Or.inr ⟨"W".data, rfl, by decide⟩)⟩

theorem sanChar_idem (c : Char) : sanChar (sanChar c) = sanChar c := by
  by_cases hs : Char.toLower c = ' '
  · have h1 : sanChar c = '_' := by simp [sanChar, hs]
    rw [h1]
    decide
  · by_cases h2 : Char.toLower c = '₂'
    · have h1 : sanChar c = '2' := by simp [sanChar, hs, h2]
      rw [h1]
      decide
    · have h1 : sanChar c = Char.toLower c := by simp [sanChar, hs, h2]
      rw [h1]
      simp [sanChar, toLower_idem, hs, h2]

theorem sanitize_idem (s : Str) : sanitize (sanitize s) = sanitize s := by
  induction s with
  | nil => rfl
  | cons c t ih =>
    rw [sanitize_cons]
    by_cases hk : keepChar (sanChar c)
    · rw [if_pos hk, sanitize_cons, sanChar_idem, if_pos hk, ih]
    · rw [if_neg hk, ih]

/-- Claim C8: metric-name derivation is total and idempotent — it is defined
for every raw name and suffix, re-deriving from the same raw inputs always
reproduces the same identifier, an already-sanitized raw name derives the
identical identifier (the sanitization pipeline is idempotent), and the unit
normalizer is a total function. -/
theorem C8_derivation_idempotent_total :
    (∀ name suffix : Str, deriveName name suffix = deriveName name suffix)
    ∧ (∀ name : Str, sanitize (sanitize name) = sanitize name)
    ∧ (∀ name suffix : Str, deriveName (sanitize name) suffix = deriveName name suffix)
    ∧ (∀ name suffix : Str, ∃ out : Str, deriveName name suffix = out)
    ∧ (∀ u : Option Str, ∃ out : Str, suffixOf u = out) :=
  ⟨fun _ _ => rfl, sanitize_idem,
   fun name suffix => by rw [deriveName, deriveName, sanitize_idem],
   fun name suffix => ⟨deriveName name suffix, rfl⟩,
   fun u => ⟨suffixOf u, rfl⟩⟩

end ZWaveExporter
